import Mathlib

/-!
# graphx: force-directed 3D layout engine and its octree index

A shallow embedding of `layout/layout.go` and `layout/octree/octree.go`.

Conventions of the embedding:

* a Go `map[string]*Object` is an association list with at most one entry per key
  (`mapGet`, `mapSet`); iteration order of the Go map is not observable in the embedded code;
* `float64` values are read as exact rationals (coordinates, accumulators, movement metric);
  rounding, infinities and NaN are not modelled;
* the unbounded `for` loop of `Calculate` takes a fuel argument: `none` means that the loop is
  still running when the fuel is used up;
* logging, the progress bar and the wall clock are side channels and are left out.
-/

namespace Graphx.layout

/-- Modelled from the spec: `graph.Link` is declared outside the sources; a link is an immutable
pair of node ids (source, target). -/
structure Link where
  Source : String
  Target : String
deriving DecidableEq

/-- Modelled from the spec: `graph.Graph` is declared outside the sources; the layout reads its
node list (here the list of the nodes' ids, in `g.Nodes()` order) and its link list. -/
structure Graph where
  nodes : List String
  links : List Link

/-- Modelled from the spec: the `Object` type (the spec's Body) is declared outside the sources.
It carries the node id, a position, a per-step force accumulator and a mass. -/
structure Object where
  ID : String
  X : ℚ
  Y : ℚ
  Z : ℚ
  FX : ℚ
  FY : ℚ
  FZ : ℚ
  Mass : ℚ
deriving DecidableEq

/-- Modelled from the spec: `NewObject(x, y, z)` constructs a body at an initial (integer)
position, with an empty accumulator and the default mass 1. -/
def NewObject (x y z : Int) : Object :=
  { ID := "", X := x, Y := y, Z := z, FX := 0, FY := 0, FZ := 0, Mass := 1 }

/-- The Go type `map[string]*Object`. -/
abbrev Objects := List (String × Object)

/-- Map write `m[k] = o`. -/
def mapSet : Objects → String → Object → Objects
  | [], k, o => [(k, o)]
  | (k', o') :: rest, k, o => if k' = k then (k, o) :: rest else (k', o') :: mapSet rest k o

/-- The `Force` interface as far as the layout uses it: `Rule()` yields the function that is
applied to the object map and the link list (the force itself is closed over). -/
structure Force where
  Rule : Objects → List Link → Objects

/-- The struct `Layout3D`. -/
structure Layout3D where
  objects : Objects
  links : List Link
  forces : List Force

/-- The constant `stableThreshold = 2.001`. -/
def stableThreshold : ℚ := 2001 / 1000

/-- The constant `math.MaxFloat64`, i.e. `(2 - 2^-52) * 2^1023`. -/
def MaxFloat64 : ℚ := (2 ^ 53 - 1) * 2 ^ 971

/-- The method `resetForces`: its body is empty in the source (`// TODO FIXME`). -/
def resetForces (l : Layout3D) : Layout3D := l

/-- The loop of `initPositions` over `g.Nodes()`; `i` is the loop index. The float64 seed
computation of the loop body (radius, roll, yaw, truncation) is the parameter `seed`. -/
def initPositionsLoop (seed : Nat → Int × Int × Int) : Nat → List String → Objects → Objects
  | _, [], objs => objs
  | i, id :: rest, objs =>
    let o : Object := { NewObject (seed i).1 (seed i).2.1 (seed i).2.2 with ID := id }
    initPositionsLoop seed (i + 1) rest (mapSet objs id o)

/-- The method `initPositions`. -/
def initPositions (seed : Nat → Int × Int × Int) (l : Layout3D) (g : Graph) : Layout3D :=
  resetForces { l with objects := initPositionsLoop seed 0 g.nodes l.objects }

/-- The constructor `New(g, forces...)`. -/
def New (seed : Nat → Int × Int × Int) (g : Graph) (forces : List Force) : Layout3D :=
  initPositions seed { objects := [], links := g.links, forces := forces } g

/-- The loop `for _, force := range l.forces` of `UpdatePositions`. -/
def applyForces (l : Layout3D) : Layout3D :=
  { l with objects := l.forces.foldl (fun objs force => force.Rule objs l.links) l.objects }

/-- The method `UpdatePositions`; the method `integrate`, which is declared outside the
sources, is a parameter. The result is the new layout and the returned movement metric. -/
def UpdatePositions (integrate : Layout3D → Layout3D × ℚ) (l : Layout3D) : Layout3D × ℚ :=
  integrate (applyForces (resetForces l))

/-- The loop `for i := 0; i < n; i++` of `CalculateN`. -/
def CalculateNLoop (integrate : Layout3D → Layout3D × ℚ) (n : Int) (i : Int) (l : Layout3D) :
    Layout3D :=
  if i < n then CalculateNLoop integrate n (i + 1) (UpdatePositions integrate l).1 else l
termination_by (n - i).toNat
decreasing_by omega

/-- The method `CalculateN`. -/
def CalculateN (integrate : Layout3D → Layout3D × ℚ) (n : Int) (l : Layout3D) : Layout3D :=
  CalculateNLoop integrate n 0 l

/-- The loop of `Calculate`: `for ...; math.Abs(tx-prevTx) >= stableThreshold; { ... }`.
The result is the final layout and the iteration count `count`. -/
def CalculateLoop (integrate : Layout3D → Layout3D × ℚ) :
    Nat → Layout3D → ℚ → ℚ → Nat → Option (Layout3D × Nat)
  | fuel, l, tx, prevTx, count =>
    if stableThreshold ≤ |tx - prevTx| then
      match fuel with
      | 0 => none
      | fuel + 1 =>
        CalculateLoop integrate fuel (UpdatePositions integrate l).1
          (UpdatePositions integrate l).2 tx (count + 1)
    else some (l, count)

/-- The method `Calculate`: `tx` starts at `math.MaxFloat64`, `prevTx` and `count` at zero. -/
def Calculate (integrate : Layout3D → Layout3D × ℚ) (fuel : Nat) (l : Layout3D) :
    Option (Layout3D × Nat) :=
  CalculateLoop integrate fuel l MaxFloat64 0 0

/-- The method `AddForce`. -/
def AddForce (l : Layout3D) (f : Force) : Layout3D :=
  { l with forces := l.forces ++ [f] }

/-- The method `Nodes`. -/
def Nodes (l : Layout3D) : Objects := l.objects

/-- The method `Links`. -/
def Links (l : Layout3D) : List Link := l.links

/-- The layout after `j` calls of `UpdatePositions`. -/
def stepState (integrate : Layout3D → Layout3D × ℚ) (l : Layout3D) (j : Nat) : Layout3D :=
  (fun s => (UpdatePositions integrate s).1)^[j] l

/-- The sequence `m_0, m_1, ...`: `m_0` is the sentinel `math.MaxFloat64`, and `m_j` is the value
returned by the `j`-th call of `UpdatePositions`. -/
def metricAt (integrate : Layout3D → Layout3D × ℚ) (l : Layout3D) : Nat → ℚ
  | 0 => MaxFloat64
  | j + 1 => (UpdatePositions integrate (stepState integrate l j)).2

/-- Accumulation of one force contribution into a body (additive). -/
def addForce (o : Object) (v : ℚ × ℚ × ℚ) : Object :=
  { o with FX := o.FX + v.1, FY := o.FY + v.2.1, FZ := o.FZ + v.2.2 }

/-- Every body's force accumulator is zero. -/
def accumulatorsCleared (objs : Objects) : Prop :=
  ∀ p ∈ objs, p.2.FX = 0 ∧ p.2.FY = 0 ∧ p.2.FZ = 0

/-- Modelled from the spec: integration of one body adds its accumulated contribution directly to
its position (a single explicit step, no velocity is kept). -/
def moveObject (o : Object) : Object :=
  { o with X := o.X + o.FX, Y := o.Y + o.FY, Z := o.Z + o.FZ }

/-- Modelled from the spec: the method `integrate` is declared outside the sources. It adds each
body's accumulated contribution directly to its position and returns a scalar aggregate movement
metric, the sum over all bodies of the magnitude of the displacement; the magnitude function is
left open by the spec and is the parameter `magnitude`. -/
def integrateSpec (magnitude : ℚ → ℚ → ℚ → ℚ) (l : Layout3D) : Layout3D × ℚ :=
  ({ l with objects := l.objects.map (fun p => (p.1, moveObject p.2)) },
   (l.objects.map (fun p => magnitude p.2.FX p.2.FY p.2.FZ)).sum)

/-- A displacement magnitude: the sum of the absolute axis displacements. -/
def absSum (x y z : ℚ) : ℚ := |x| + |y| + |z|

/-- An implementation of `Force` whose rule adds the constant contribution `(c, 0, 0)` to every
body. -/
def constantPush (c : ℚ) : Force :=
  { Rule := fun objs _ => objs.map (fun p => (p.1, addForce p.2 (c, 0, 0))) }

/-- A body with id `id` at the origin, as `New` creates it for the seed `(0, 0, 0)`. -/
def bodyAtOrigin (id : String) : Object := { NewObject 0 0 0 with ID := id }

/-- A layout of one body under a constant push of 3 along the x axis. -/
def pushedLayout : Layout3D :=
  { objects := [("0", bodyAtOrigin "0")], links := [], forces := [constantPush 3] }

/-- The layout `pushedLayout` after its first step: the body has moved to `x = 3` and its
accumulator still holds the contribution `(3, 0, 0)` of that step. -/
def pushedLayoutAfterStep : Layout3D :=
  { objects := [("0", { bodyAtOrigin "0" with X := 3, FX := 3 })], links := [],
    forces := [constantPush 3] }

/-- The opposite vector. -/
def negVec (v : ℚ × ℚ × ℚ) : ℚ × ℚ × ℚ := (-v.1, -v.2.1, -v.2.2)

/-- Accumulation of a contribution into the `i`-th body of the map. -/
def addForceAt : Objects → Nat → ℚ × ℚ × ℚ → Objects
  | [], _, _ => []
  | p :: rest, 0, v => (p.1, addForce p.2 v) :: rest
  | p :: rest, i + 1, v => p :: addForceAt rest i v

/-- The unordered pairs `(i, j)`, `i < j < n`, of body indices. -/
def unorderedPairs (n : Nat) : List (Nat × Nat) :=
  ((List.range n).map
    (fun i => ((List.range n).filter (fun j => i < j)).map (fun j => (i, j)))).flatten

/-- Modelled from the spec: the gravity force law is declared outside the sources. For a pair of
bodies it takes the displacement vector from `a` to `b` and its Euclidean distance, and scales the
displacement by a scalar that depends on the coefficient and on the distance; the dependence is
the parameter `law` (a function of the coefficient and of the squared distance). The pair is
skipped (zero contribution) when the distance is zero. -/
def pairForce (law : ℚ → ℚ → ℚ) (coef : ℚ) (a b : Object) : ℚ × ℚ × ℚ :=
  let dx := b.X - a.X
  let dy := b.Y - a.Y
  let dz := b.Z - a.Z
  let d2 := dx * dx + dy * dy + dz * dz
  if d2 = 0 then (0, 0, 0) else (law coef d2 * dx, law coef d2 * dy, law coef d2 * dz)

/-- Modelled from the spec: the rule `EachOnEach` is declared outside the sources. For every
unordered pair of distinct bodies it adds the pair's force vector to one body and its negation to
the other. -/
def EachOnEach (law : ℚ → ℚ → ℚ) (coef : ℚ) (objs : Objects) (_links : List Link) : Objects :=
  (unorderedPairs objs.length).foldl (fun acc ij =>
    match objs.get? ij.1, objs.get? ij.2 with
    | some a, some b =>
      addForceAt (addForceAt acc ij.1 (pairForce law coef a.2 b.2)) ij.2
        (negVec (pairForce law coef a.2 b.2))
    | _, _ => acc) objs

/-- Modelled from the spec: `NewGravityForce(coef, EachOnEach)`, the exact gravity force. -/
def NewGravityForce (law : ℚ → ℚ → ℚ) (coef : ℚ) : Force :=
  { Rule := EachOnEach law coef }

/-- Modelled from the spec: `SetPosition(x, y, z)` overwrites the position of a body. -/
def SetPosition (o : Object) (x y z : ℚ) : Object := { o with X := x, Y := y, Z := z }

/-- A force law used in examples: the displacement is scaled by `coef / d²`. -/
def inverseSquareLaw (coef d2 : ℚ) : ℚ := coef / d2

/-- A layout of exactly two bodies `a` and `b` (stored under the keys `idA` and `idB`) with exact
gravity, of law `law` and coefficient `coef`, as its only force; the shape of the layout of the
test `2_bodies_eachoneach`. -/
def twoBodies (law : ℚ → ℚ → ℚ) (coef : ℚ) (idA idB : String) (a b : Object) : Layout3D :=
  { objects := [(idA, a), (idB, b)], links := [], forces := [NewGravityForce law coef] }

/-! ### The seed positions of `initPositions` over the reals

The float64 computation of the loop body of `initPositions` is read over the real numbers:
`math.Cbrt`, `math.Cos`, `math.Sin`, `math.Sqrt` and `math.Pi` are the real functions and
constant, and the conversion `int(...)` truncates toward zero. -/

/-- The conversion `int(x)` of a float64: truncation toward zero. -/
noncomputable def truncToInt (x : ℝ) : ℤ := if 0 ≤ x then ⌊x⌋ else ⌈x⌉

/-- The function `math.Cbrt` on the non-negative reals (loop indices are non-negative). -/
noncomputable def Cbrt (x : ℝ) : ℝ := x ^ ((3 : ℝ)⁻¹)

/-- The value `radius := 10 * math.Cbrt(float64(i))`. -/
noncomputable def seedRadius (i : ℕ) : ℝ := 10 * Cbrt (i : ℝ)

/-- The value `rollAngle := float64(i) * math.Pi * (3 - math.Sqrt(5))`, the golden angle. -/
noncomputable def seedRollAngle (i : ℕ) : ℝ := (i : ℝ) * Real.pi * (3 - Real.sqrt 5)

/-- The value `yawAngle := float64(i) * math.Pi / 24`. -/
noncomputable def seedYawAngle (i : ℕ) : ℝ := (i : ℝ) * Real.pi / 24

/-- The integer seed coordinates `(x, y, z)` that `initPositions` computes for the node of
index `i`. -/
noncomputable def seedPosition (i : ℕ) : ℤ × ℤ × ℤ :=
  (truncToInt (seedRadius i * Real.cos (seedRollAngle i)),
    truncToInt (seedRadius i * Real.sin (seedRollAngle i)),
    truncToInt (seedRadius i * Real.sin (seedYawAngle i)))

end Graphx.layout

namespace Graphx.octree

/-- Modelled from the spec: the type `Point` is declared outside the sources; a weighted point
carries an id, a position and a mass. -/
structure Point where
  ID : String
  X : ℚ
  Y : ℚ
  Z : ℚ
  Mass : ℚ
deriving DecidableEq

/-- The struct `Octree`. The interface `Octant` (implemented by types declared outside the
sources) is the type parameter; a `nil` root is `none`; the lookup table `ids` is a Go
`map[string]Octant`, embedded as an association list. -/
structure Octree (Octant : Type) where
  Root : Option Octant
  ids : List (String × Octant)

/-- Map read `ids[id]` (with the `ok` flag as `Option`). -/
def idsGet {Octant : Type} : List (String × Octant) → String → Option Octant
  | [], _ => none
  | (k, oct) :: rest, id => if k = id then some oct else idsGet rest id

/-- The constructor `New`. -/
def New {Octant : Type} : Octree Octant := { Root := none, ids := [] }

/-- The method `Insert`. The method `NewLeaf` and the octants' own `Insert` are declared outside
the sources and are parameters; both may touch the tree they are called on. -/
def Insert {Octant : Type} (NewLeaf : Octree Octant → Point → Octree Octant × Octant)
    (octantInsert : Octree Octant → Octant → Point → Octree Octant × Octant)
    (o : Octree Octant) (p : Point) : Octree Octant :=
  match o.Root with
  | none => { (NewLeaf o p).1 with Root := some (NewLeaf o p).2 }
  | some root => { (octantInsert o root p).1 with Root := some (octantInsert o root p).2 }

/-- The method `FindLeaf`: the tree after the call and the returned pair, an octant with a `nil`
error or the error `leaf not found` with a `nil` octant. -/
def FindLeaf {Octant : Type} (o : Octree Octant) (id : String) :
    Octree Octant × Except String Octant :=
  match idsGet o.ids id with
  | none => (o, Except.error "leaf not found")
  | some oct => (o, Except.ok oct)

end Graphx.octree

namespace Graphx.layout

/-! ## The driving loops: `CalculateN` and `Calculate` -/

theorem stepState_succ (integrate : Layout3D → Layout3D × ℚ) (l : Layout3D) (j : Nat) :
    stepState integrate l (j + 1) = (UpdatePositions integrate (stepState integrate l j)).1 := by
  unfold stepState
  rw [Function.iterate_succ_apply']

theorem stepState_shift (integrate : Layout3D → Layout3D × ℚ) (l : Layout3D) (j : Nat) :
    stepState integrate l (j + 1) = stepState integrate (UpdatePositions integrate l).1 j := by
  unfold stepState
  rw [Function.iterate_succ_apply]

theorem CalculateNLoop_done (integrate : Layout3D → Layout3D × ℚ) (n i : Int) (l : Layout3D)
    (h : n ≤ i) : CalculateNLoop integrate n i l = l := by
  rw [CalculateNLoop, if_neg (not_lt.mpr h)]

theorem CalculateNLoop_steps (integrate : Layout3D → Layout3D × ℚ) (n : Int) :
    ∀ (k : Nat) (i : Int) (l : Layout3D), n - i = k →
      CalculateNLoop integrate n i l = stepState integrate l k := by
  intro k
  induction k with
  | zero =>
    intro i l h
    rw [CalculateNLoop_done integrate n i l (by omega)]
    rfl
  | succ k ih =>
    intro i l h
    rw [CalculateNLoop, if_pos (by omega), ih (i + 1) _ (by omega), stepState_shift]

theorem CalculateN_runs_exactly_n_steps_aux (integrate : Layout3D → Layout3D × ℚ) (n : Int)
    (l : Layout3D) : CalculateN integrate n l = stepState integrate l n.toNat := by
  unfold CalculateN
  by_cases hn : 0 ≤ n
  · exact CalculateNLoop_steps integrate n n.toNat 0 l (by omega)
  · rw [CalculateNLoop_done integrate n 0 l (by omega)]
    have : n.toNat = 0 := by omega
    rw [this]
    rfl

/-- C4: `CalculateN(n)` leaves the layout in the state reached by applying `UpdatePositions`
exactly `n` times in sequence (`n.toNat` is `n` for `n ≥ 0`), and for `n ≤ 0` it executes no step:
the layout, hence every body, is unchanged. -/
theorem CalculateN_runs_exactly_n_steps (integrate : Layout3D → Layout3D × ℚ) (n : Int)
    (l : Layout3D) :
    CalculateN integrate n l = stepState integrate l n.toNat ∧
      (n ≤ 0 → CalculateN integrate n l = l) := by
  constructor
  · exact CalculateN_runs_exactly_n_steps_aux integrate n l
  · intro hn
    exact CalculateNLoop_done integrate n 0 l hn

theorem stableThreshold_le_sentinel : stableThreshold ≤ |MaxFloat64 - 0| := by
  unfold stableThreshold MaxFloat64
  rw [sub_zero, abs_of_nonneg (by norm_num)]
  norm_num

/-- One turn of the loop of `Calculate` when the condition holds. -/
theorem CalculateLoop_continue (integrate : Layout3D → Layout3D × ℚ) (fuel : Nat) (l : Layout3D)
    (tx prevTx : ℚ) (count : Nat) (h : stableThreshold ≤ |tx - prevTx|) :
    CalculateLoop integrate (fuel + 1) l tx prevTx count =
      CalculateLoop integrate fuel (UpdatePositions integrate l).1
        (UpdatePositions integrate l).2 tx (count + 1) := by
  rw [CalculateLoop, if_pos h]

/-- The loop of `Calculate` ends as soon as the condition fails. -/
theorem CalculateLoop_stop (integrate : Layout3D → Layout3D × ℚ) (fuel : Nat) (l : Layout3D)
    (tx prevTx : ℚ) (count : Nat) (h : |tx - prevTx| < stableThreshold) :
    CalculateLoop integrate fuel l tx prevTx count = some (l, count) := by
  cases fuel <;> rw [CalculateLoop, if_neg (not_le.mpr h)]

theorem CalculateLoop_out_of_fuel (integrate : Layout3D → Layout3D × ℚ) (l : Layout3D)
    (tx prevTx : ℚ) (count : Nat) (h : stableThreshold ≤ |tx - prevTx|) :
    CalculateLoop integrate 0 l tx prevTx count = none := by
  rw [CalculateLoop, if_pos h]

/-- The first turn of `Calculate` always runs: the sentinel is far from zero. -/
theorem Calculate_first_step (integrate : Layout3D → Layout3D × ℚ) (fuel : Nat) (l : Layout3D) :
    Calculate integrate (fuel + 1) l =
      CalculateLoop integrate fuel (stepState integrate l 1) (metricAt integrate l 1)
        (metricAt integrate l 0) 1 := by
  unfold Calculate
  rw [CalculateLoop_continue integrate fuel l _ _ _ stableThreshold_le_sentinel]
  rfl

theorem Calculate_zero_fuel (integrate : Layout3D → Layout3D × ℚ) (l : Layout3D) :
    Calculate integrate 0 l = none :=
  CalculateLoop_out_of_fuel integrate l _ _ _ stableThreshold_le_sentinel

/-- C1 (the defect): `resetForces` returns every layout unchanged, so the state that
`UpdatePositions` hands to the first force rule still holds the accumulators of the previous
step. For the one-body layout under a constant push, the state after the first step is
`pushedLayoutAfterStep`, and after `resetForces` its accumulator is `(3, 0, 0)`, not zero. -/
theorem resetForces_clears_nothing :
    (∀ l : Layout3D, resetForces l = l) ∧
      (UpdatePositions (integrateSpec absSum) pushedLayout).1.objects
        = pushedLayoutAfterStep.objects ∧
      (applyForces pushedLayout).objects = [("0", { bodyAtOrigin "0" with FX := 3 })] ∧
      ¬ accumulatorsCleared (resetForces pushedLayoutAfterStep).objects := by
  refine ⟨fun _ => rfl, ?_, ?_, ?_⟩
  · simp [UpdatePositions, resetForces, applyForces, integrateSpec, moveObject, pushedLayout,
      pushedLayoutAfterStep, constantPush, addForce, bodyAtOrigin, NewObject]
  · simp [applyForces, pushedLayout, constantPush, addForce, bodyAtOrigin, NewObject]
  · intro h
    have := h ("0", { bodyAtOrigin "0" with X := 3, FX := 3 })
      (by simp [resetForces, pushedLayoutAfterStep])
    norm_num at this

/-! ## A run of `Calculate` that never settles -/

theorem EachOnEach_two (law : ℚ → ℚ → ℚ) (coef : ℚ) (idA idB : String) (a b : Object)
    (links : List Link) :
    EachOnEach law coef [(idA, a), (idB, b)] links =
      [(idA, addForce a (pairForce law coef a b)),
        (idB, addForce b (negVec (pairForce law coef a b)))] := by
  simp [EachOnEach, unorderedPairs, List.range_succ, List.filter, addForceAt]

/-- The state of the two-body layout after `n` steps: the accumulators are opposite and the sum
of the two positions is the initial one. -/
theorem twoBodies_invariant (magnitude : ℚ → ℚ → ℚ → ℚ) (law : ℚ → ℚ → ℚ) (coef : ℚ)
    (idA idB : String) (a b : Object)
    (ha : a.FX = 0 ∧ a.FY = 0 ∧ a.FZ = 0) (hb : b.FX = 0 ∧ b.FY = 0 ∧ b.FZ = 0) (n : Nat) :
    ∃ a' b' : Object,
      stepState (integrateSpec magnitude) (twoBodies law coef idA idB a b) n
        = twoBodies law coef idA idB a' b' ∧
      a'.FX + b'.FX = 0 ∧ a'.FY + b'.FY = 0 ∧ a'.FZ + b'.FZ = 0 ∧
      a'.X + b'.X = a.X + b.X ∧ a'.Y + b'.Y = a.Y + b.Y ∧ a'.Z + b'.Z = a.Z + b.Z := by
  induction n with
  | zero =>
    refine ⟨a, b, rfl, ?_, ?_, ?_, rfl, rfl, rfl⟩
    · rw [ha.1, hb.1]; norm_num
    · rw [ha.2.1, hb.2.1]; norm_num
    · rw [ha.2.2, hb.2.2]; norm_num
  | succ n ih =>
    obtain ⟨a', b', hst, hfx, hfy, hfz, hx, hy, hz⟩ := ih
    rw [stepState_succ, hst]
    refine ⟨moveObject (addForce a' (pairForce law coef a' b')),
      moveObject (addForce b' (negVec (pairForce law coef a' b'))), ?_, ?_⟩
    · simp only [UpdatePositions, resetForces, applyForces, twoBodies, NewGravityForce,
        List.foldl_cons, List.foldl_nil, EachOnEach_two, integrateSpec, List.map_cons,
        List.map_nil]
    · simp only [moveObject, addForce, negVec]
      refine ⟨?_, ?_, ?_, ?_, ?_, ?_⟩ <;> linarith

/-- C6: for a layout of exactly two bodies (with empty accumulators, as a new layout has them)
under exact gravity as the only force, after every number `n` of `UpdatePositions` steps the
displacement of body A from its initial position equals the mirrored displacement of body B on
every axis (the difference is zero, hence within 1e-4), and the sum of the two positions, i.e.
the centre of mass, is the initial one. -/
theorem two_body_displacements_mirror (magnitude : ℚ → ℚ → ℚ → ℚ) (law : ℚ → ℚ → ℚ) (coef : ℚ)
    (idA idB : String) (a b : Object)
    (ha : a.FX = 0 ∧ a.FY = 0 ∧ a.FZ = 0) (hb : b.FX = 0 ∧ b.FY = 0 ∧ b.FZ = 0) (n : Nat) :
    ∃ a' b' : Object,
      (stepState (integrateSpec magnitude) (twoBodies law coef idA idB a b) n).objects
        = [(idA, a'), (idB, b')] ∧
      |(a.X - a'.X) - (b'.X - b.X)| ≤ 1 / 10000 ∧
      |(a.Y - a'.Y) - (b'.Y - b.Y)| ≤ 1 / 10000 ∧
      |(a.Z - a'.Z) - (b'.Z - b.Z)| ≤ 1 / 10000 ∧
      a'.X + b'.X = a.X + b.X ∧ a'.Y + b'.Y = a.Y + b.Y ∧ a'.Z + b'.Z = a.Z + b.Z := by
  obtain ⟨a', b', hst, _, _, _, hx, hy, hz⟩ :=
    twoBodies_invariant magnitude law coef idA idB a b ha hb n
  refine ⟨a', b', by rw [hst]; rfl, ?_, ?_, ?_, hx, hy, hz⟩
  · have : (a.X - a'.X) - (b'.X - b.X) = 0 := by linarith
    rw [this]; norm_num
  · have : (a.Y - a'.Y) - (b'.Y - b.Y) = 0 := by linarith
    rw [this]; norm_num
  · have : (a.Z - a'.Z) - (b'.Z - b.Z) = 0 := by linarith
    rw [this]; norm_num

/-- C6 (witness): the test `2_bodies_eachoneach`: bodies "0" at `(0,0,0)` and "1" at
`(100,100,100)`, coefficient `-1.0`, after 10,000 steps. -/
theorem two_body_displacements_mirror_witness :
    ∃ a' b' : Object,
      (stepState (integrateSpec absSum)
        (twoBodies inverseSquareLaw (-1) "0" "1" (SetPosition (bodyAtOrigin "0") 0 0 0)
          (SetPosition (bodyAtOrigin "1") 100 100 100)) 10000).objects
        = [("0", a'), ("1", b')] ∧
      |((SetPosition (bodyAtOrigin "0") 0 0 0).X - a'.X)
        - (b'.X - (SetPosition (bodyAtOrigin "1") 100 100 100).X)| ≤ 1 / 10000 ∧
      |((SetPosition (bodyAtOrigin "0") 0 0 0).Y - a'.Y)
        - (b'.Y - (SetPosition (bodyAtOrigin "1") 100 100 100).Y)| ≤ 1 / 10000 ∧
      |((SetPosition (bodyAtOrigin "0") 0 0 0).Z - a'.Z)
        - (b'.Z - (SetPosition (bodyAtOrigin "1") 100 100 100).Z)| ≤ 1 / 10000 ∧
      a'.X + b'.X = (SetPosition (bodyAtOrigin "0") 0 0 0).X
        + (SetPosition (bodyAtOrigin "1") 100 100 100).X ∧
      a'.Y + b'.Y = (SetPosition (bodyAtOrigin "0") 0 0 0).Y
        + (SetPosition (bodyAtOrigin "1") 100 100 100).Y ∧
      a'.Z + b'.Z = (SetPosition (bodyAtOrigin "0") 0 0 0).Z
        + (SetPosition (bodyAtOrigin "1") 100 100 100).Z :=
  two_body_displacements_mirror absSum inverseSquareLaw (-1) "0" "1"
    (SetPosition (bodyAtOrigin "0") 0 0 0) (SetPosition (bodyAtOrigin "1") 100 100 100)
    ⟨rfl, rfl, rfl⟩ ⟨rfl, rfl, rfl⟩ 10000

/-! ## Seed positions -/

theorem abs_sub_truncToInt_lt_one (x : ℝ) : |x - (truncToInt x : ℝ)| < 1 := by
  unfold truncToInt
  split_ifs with h0
  · rw [abs_lt]
    constructor
    · have := Int.floor_le x; linarith
    · have := Int.lt_floor_add_one x; linarith
  · rw [abs_lt]
    constructor
    · have := Int.ceil_lt_add_one x; linarith
    · have := Int.le_ceil x; linarith

theorem Cbrt_nonneg (x : ℝ) (hx : 0 ≤ x) : 0 ≤ Cbrt x := Real.rpow_nonneg hx _

theorem Cbrt_pow_three (x : ℝ) (hx : 0 ≤ x) : Cbrt x ^ 3 = x := by
  have h := Real.rpow_inv_natCast_pow hx (n := 3) (by norm_num)
  simpa [Cbrt] using h

theorem le_Cbrt (a x : ℝ) (hx : 0 ≤ x) (h : a ^ 3 ≤ x) : a ≤ Cbrt x := by
  by_contra hlt
  push_neg at hlt
  have h0 := Cbrt_nonneg x hx
  have h3 : Cbrt x ^ 3 < a ^ 3 := pow_lt_pow_left₀ hlt h0 (by norm_num)
  rw [Cbrt_pow_three x hx] at h3
  linarith

/-- The truncated planar coordinates stay within distance `2√2` of any other point that
truncates to the same integers; the radii of two such seeds differ by less than 3. -/
theorem radius_gap_of_same_xy (r s a b : ℝ) (hr : 0 ≤ r) (hs : 0 ≤ s)
    (hx : truncToInt (r * Real.cos a) = truncToInt (s * Real.cos b))
    (hy : truncToInt (r * Real.sin a) = truncToInt (s * Real.sin b)) : s < r + 3 := by
  have hx1 := abs_lt.mp (abs_sub_truncToInt_lt_one (r * Real.cos a))
  have hx2 := abs_lt.mp (abs_sub_truncToInt_lt_one (s * Real.cos b))
  have hy1 := abs_lt.mp (abs_sub_truncToInt_lt_one (r * Real.sin a))
  have hy2 := abs_lt.mp (abs_sub_truncToInt_lt_one (s * Real.sin b))
  rw [hx] at hx1
  rw [hy] at hy1
  have hdx : (r * Real.cos a - s * Real.cos b) ^ 2 < 4 := by
    have h1 : -2 < r * Real.cos a - s * Real.cos b := by linarith [hx1.1, hx2.2]
    have h2 : r * Real.cos a - s * Real.cos b < 2 := by linarith [hx1.2, hx2.1]
    nlinarith
  have hdy : (r * Real.sin a - s * Real.sin b) ^ 2 < 4 := by
    have h1 : -2 < r * Real.sin a - s * Real.sin b := by linarith [hy1.1, hy2.2]
    have h2 : r * Real.sin a - s * Real.sin b < 2 := by linarith [hy1.2, hy2.1]
    nlinarith
  have hca := Real.cos_sq_add_sin_sq a
  have hcb := Real.cos_sq_add_sin_sq b
  have hcs : Real.cos a * Real.cos b + Real.sin a * Real.sin b ≤ 1 := by
    rw [← Real.cos_sub]
    exact Real.cos_le_one _
  have hexp : (r * Real.cos a - s * Real.cos b) ^ 2 + (r * Real.sin a - s * Real.sin b) ^ 2
      = r ^ 2 * (Real.cos a ^ 2 + Real.sin a ^ 2) + s ^ 2 * (Real.cos b ^ 2 + Real.sin b ^ 2)
        - 2 * (r * s) * (Real.cos a * Real.cos b + Real.sin a * Real.sin b) := by ring
  rw [hca, hcb] at hexp
  have hrs : 0 ≤ r * s := mul_nonneg hr hs
  have hgap : (s - r) ^ 2 < 8 := by nlinarith
  by_contra hge
  push_neg at hge
  nlinarith

/-- If the loop of `Calculate`, entered at iteration `j + 1`, returns `r`, then `r` is the state
and count of the first step `k + 1 ≥ j + 1` whose metric differs from the previous one by less
than the threshold, and the fuel sufficed for the steps in between. -/
theorem CalculateLoop_result (integrate : Layout3D → Layout3D × ℚ) (l : Layout3D) :
    ∀ (fuel j : Nat) (r : Layout3D × Nat),
      CalculateLoop integrate fuel (stepState integrate l (j + 1)) (metricAt integrate l (j + 1))
        (metricAt integrate l j) (j + 1) = some r →
      ∃ k, j ≤ k ∧ k ≤ j + fuel ∧ r = (stepState integrate l (k + 1), k + 1) ∧
        |metricAt integrate l (k + 1) - metricAt integrate l k| < stableThreshold ∧
        ∀ i, j ≤ i → i < k →
          stableThreshold ≤ |metricAt integrate l (i + 1) - metricAt integrate l i| := by
  intro fuel
  induction fuel with
  | zero =>
    intro j r h
    by_cases hc : stableThreshold ≤ |metricAt integrate l (j + 1) - metricAt integrate l j|
    · rw [CalculateLoop_out_of_fuel integrate _ _ _ _ hc] at h
      exact absurd h (by simp)
    · rw [CalculateLoop_stop integrate 0 _ _ _ _ (not_le.mp hc)] at h
      exact ⟨j, le_rfl, by omega, (Option.some.inj h).symm, not_le.mp hc,
        fun i h1 h2 => absurd h2 (by omega)⟩
  | succ fuel ih =>
    intro j r h
    by_cases hc : stableThreshold ≤ |metricAt integrate l (j + 1) - metricAt integrate l j|
    · rw [CalculateLoop_continue integrate fuel _ _ _ _ hc] at h
      obtain ⟨k, hk, hkf, hr, hlt, hge⟩ :=
        ih (j + 1) r (by rw [stepState_succ integrate l (j + 1)]; exact h)
      refine ⟨k, by omega, by omega, hr, hlt, ?_⟩
      intro i h1 h2
      by_cases hij : i = j
      · rw [hij]; exact hc
      · exact hge i (by omega) h2
    · rw [CalculateLoop_stop integrate (fuel + 1) _ _ _ _ (not_le.mp hc)] at h
      exact ⟨j, le_rfl, by omega, (Option.some.inj h).symm, not_le.mp hc,
        fun i h1 h2 => absurd h2 (by omega)⟩

/-- X1: whenever `Calculate` returns, it has performed `k ≥ 1` steps (at most the fuel), the
layout is the one reached by `k` calls of `UpdatePositions`, step `k` is stable and no earlier
step is. -/
theorem Calculate_result_is_first_stable_step (integrate : Layout3D → Layout3D × ℚ)
    (l : Layout3D) (fuel : Nat) (r : Layout3D × Nat)
    (h : Calculate integrate fuel l = some r) :
    1 ≤ r.2 ∧ r.2 ≤ fuel ∧ r.1 = stepState integrate l r.2 ∧
      |metricAt integrate l r.2 - metricAt integrate l (r.2 - 1)| < stableThreshold ∧
      ∀ j, 1 ≤ j → j < r.2 →
        stableThreshold ≤ |metricAt integrate l j - metricAt integrate l (j - 1)| := by
  cases fuel with
  | zero => rw [Calculate_zero_fuel] at h; exact absurd h (by simp)
  | succ fuel =>
    rw [Calculate_first_step] at h
    obtain ⟨k, _, hkf, hr, hlt, hge⟩ := CalculateLoop_result integrate l fuel 0 r h
    subst hr
    refine ⟨by simp, by simp; omega, rfl, hlt, ?_⟩
    intro j h1 h2
    obtain ⟨j, rfl⟩ : ∃ j', j = j' + 1 := ⟨j - 1, by omega⟩
    exact hge j (by omega) (by simpa using h2)

/-- X1 (witness): the run of the layout without forces, which returns after two steps. -/
theorem Calculate_result_is_first_stable_step_witness :
    1 ≤ (stepState (integrateSpec absSum)
          { objects := [("0", bodyAtOrigin "0")], links := [], forces := [] } 2, 2).2 ∧
      (stepState (integrateSpec absSum)
          { objects := [("0", bodyAtOrigin "0")], links := [], forces := [] } 2, 2).2 ≤ 2 :=
  have h := Calculate_result_is_first_stable_step (integrateSpec absSum)
    { objects := [("0", bodyAtOrigin "0")], links := [], forces := [] } 2
    (stepState (integrateSpec absSum)
      { objects := [("0", bodyAtOrigin "0")], links := [], forces := [] } 2, 2)
    (by
      have hst : stepState (integrateSpec absSum)
          { objects := [("0", bodyAtOrigin "0")], links := [], forces := [] } 2
          = { objects := [("0", bodyAtOrigin "0")], links := [], forces := [] } := by
        simp [stepState, UpdatePositions, resetForces, applyForces, integrateSpec, moveObject,
          bodyAtOrigin, NewObject]
      rw [hst]
      have hthr : (0 : ℚ) < stableThreshold := by unfold stableThreshold; norm_num
      have hmax : stableThreshold ≤ MaxFloat64 := by
        unfold stableThreshold MaxFloat64; norm_num
      simp [Calculate, CalculateLoop, UpdatePositions, resetForces, applyForces, integrateSpec,
        moveObject, bodyAtOrigin, NewObject, absSum, hthr, hmax,
        abs_of_nonneg (le_trans hthr.le hmax)])
  ⟨h.1, h.2.1⟩

/-- X2: `AddForce` appends the force at the end of the force list and leaves the object map and
the links as they are. -/
theorem AddForce_appends (l : Layout3D) (f : Force) :
    (AddForce l f).forces = l.forces ++ [f] ∧ (AddForce l f).objects = l.objects ∧
      (AddForce l f).links = l.links :=
  ⟨rfl, rfl, rfl⟩

theorem seedPosition_zero : seedPosition 0 = (0, 0, 0) := by
  have h0 : seedRadius 0 = 0 := by
    unfold seedRadius Cbrt
    rw [Nat.cast_zero, Real.zero_rpow (by norm_num)]
    norm_num
  unfold seedPosition
  rw [h0]
  simp [truncToInt]

/-- X3: the node of index 0 is seeded at the origin `(0, 0, 0)`, and no node of another index
is. -/
theorem seedPosition_origin_iff (j : ℕ) : seedPosition j = (0, 0, 0) ↔ j = 0 := by
  constructor
  · intro h
    by_contra hj
    have hj1 : (1 : ℝ) ≤ (j : ℝ) := by exact_mod_cast Nat.one_le_iff_ne_zero.mpr hj
    have hc : (1 : ℝ) ≤ Cbrt (j : ℝ) := le_Cbrt 1 (j : ℝ) (by positivity) (by simpa using hj1)
    have hr0 : seedRadius 0 = 0 := by
      unfold seedRadius Cbrt
      rw [Nat.cast_zero, Real.zero_rpow (by norm_num)]
      norm_num
    have hgap : seedRadius 0 + 3 ≤ seedRadius j := by
      rw [hr0]
      unfold seedRadius
      linarith
    have hne := radius_gap_of_same_xy (seedRadius 0) (seedRadius j) (seedRollAngle 0)
      (seedRollAngle j) (by rw [hr0]) (by unfold seedRadius; linarith)
    have h0 := seedPosition_zero
    have hx : truncToInt (seedRadius 0 * Real.cos (seedRollAngle 0))
        = truncToInt (seedRadius j * Real.cos (seedRollAngle j)) := by
      have a := congrArg Prod.fst h0
      have b := congrArg Prod.fst h
      simp only [seedPosition] at a b
      rw [a, b]
    have hy : truncToInt (seedRadius 0 * Real.sin (seedRollAngle 0))
        = truncToInt (seedRadius j * Real.sin (seedRollAngle j)) := by
      have a := congrArg (fun p => p.2.1) h0
      have b := congrArg (fun p => p.2.1) h
      simp only [seedPosition] at a b
      rw [a, b]
    have := hne hx hy
    linarith
  · rintro rfl
    exact seedPosition_zero

end Graphx.layout

namespace Graphx.octree

/-! ## Lookup in the octree -/

/-- C8: `FindLeaf` returns the error (and no octant) if and only if the id is absent from the
lookup table, and otherwise returns the octant stored for the id with no error; on a tree just
built by `New` every lookup reports not-found; and `FindLeaf` leaves the tree as it was. -/
theorem FindLeaf_not_found_iff_absent {Octant : Type} (o : Octree Octant) (id : String) :
    ((FindLeaf o id).2 = Except.error "leaf not found" ↔ idsGet o.ids id = none) ∧
      (∀ oct, idsGet o.ids id = some oct ↔ (FindLeaf o id).2 = Except.ok oct) ∧
      (FindLeaf (New : Octree Octant) id).2 = Except.error "leaf not found" ∧
      (FindLeaf o id).1 = o := by
  unfold FindLeaf
  refine ⟨?_, ?_, rfl, ?_⟩
  · cases h : idsGet o.ids id <;> simp
  · intro oct
    cases h : idsGet o.ids id <;> simp
  · cases h : idsGet o.ids id <;> rfl

end Graphx.octree
